import Mathlib

/-!
Shallow embedding of the crawl/scrape orchestration core of
`mbapy/web_utils/spider.py`: the `AsyncResult` handle, the fetch node
(`PagePage`), the paginated fetch node (`UrlIdxPagesPage`), the extraction
node (`ItemsPage`), and the orchestrator (`Actions`).

The external collaborators (`CoroutinePool`, `TaskStatus`) are imported by
the source from `web_utils/task.py`, which does not define them in this
tree; they are modelled from the spec where noted.  Everything else is
translated directly from `spider.py`.
-/

namespace Spider

/-- Modelled from the spec: `TaskStatus` is imported from `web_utils.task`,
which does not define it in this tree.  The spec describes the pool query
as returning one of not-finished, not-succeeded, or a finished value, plus
the not-returned sentinel used by `AsyncResult`; it speaks of a single
"not-succeeded" status, so the source's `TaskStatus.NOT_SUCCEED` (in
`get_web_html_async`) and `TaskStatus.NOT_SUCCEEDED` (in `ItemsPage.parse`)
both denote the `notSucceeded` value here. -/
inductive TaskStatus where
  | notFinished
  | notSucceeded
  | notReturned
deriving DecidableEq

/-- Modelled from the spec: a value produced by `CoroutinePool.query_task`
(the pool class is absent from this tree).  The pool reports either
not-finished, a success payload (page text), or the failure marker. -/
inductive PoolVal where
  | notFinished
  | ok (s : String)
  | fail (m : String)
deriving DecidableEq

/-- Modelled from the spec: the poll responses of `CoroutinePool.query_task`
for one task, as a function of the number of queries made so far.  A task
that completes after `T` polls reports `notFinished` for the first `T`
queries and its terminal value `v` from then on (the pool keeps reporting
the terminal value once it is reached). -/
def query_task (T : Nat) (v : PoolVal) (k : Nat) : PoolVal :=
  if k < T then .notFinished else v

/-- The polling loop of `AsyncResult.get` (spider.py lines 77-80):
query the pool, and while the answer equals `NOT_FINISHED`, query again.
`q` is the pool's response as a function of the query counter `c`; `fuel`
bounds the number of iterations (the source loop has no bound; a `none`
result means the loop is still running after `fuel` queries).  Returns the
first terminal answer together with the new query counter. -/
def pollLoop (q : Nat → PoolVal) : Nat → Nat → Option (PoolVal × Nat)
  | 0, _ => none
  | fuel + 1, c =>
    let r := q c
    if r = .notFinished then pollLoop q fuel (c + 1) else some (r, c + 1)

/-- `AsyncResult.get` (spider.py lines 71-82).  The cache `cache` models
`self.result`: `none` stands for the `TaskStatus.NOT_RETURNED` sentinel.
If a terminal value is cached, it is returned with no pool query (the
query counter `c` is unchanged); otherwise the polling loop runs.  The
returned triple is (value, new query counter, new cache). -/
def AsyncResult_get (q : Nat → PoolVal) (fuel c : Nat) (cache : Option PoolVal) :
    Option (PoolVal × Nat × Option PoolVal) :=
  match cache with
  | some r => some (r, c, some r)
  | none =>
    match pollLoop q fuel c with
    | none => none
    | some (r, c') => some (r, c', some r)

/-- The `url` configuration of a `PagePage` (spider.py lines 169-201):
`None`, a flat list of URL strings (treated as one page), or a list of
lists of URLs (one inner list per page).  The source discriminates the two
list shapes at runtime by the type of the first element; mixed lists are
outside this model, matching the docstring's "item of url could be str of
list of str" shape discipline. -/
inductive UrlCfg where
  | noUrl
  | flat (us : List String)
  | nested (uss : List (List String))
deriving DecidableEq

/-- State of a `PagePage` node, plus the shared task pool.  `records`
models the per-node `self._records` dict (keys only, in insertion order);
`pool` models the shared `CoroutinePool` as the list of submitted fetch
tasks, identified by their URL, so that a task name is an index into this
list.  `result` and `result_page_html` hold the task indices of the
`AsyncResult` handles appended by `parse`. -/
structure PagePageState where
  url : UrlCfg
  ignore_records : Bool
  records : List String
  result : List (List Nat)
  result_page_html : List (List Nat)
  result_page_xpath : List (List Nat)
  pool : List String
deriving DecidableEq

/-- A freshly constructed `PagePage` bound to an empty pool: all result
containers and the records dict start empty (`BasePage.__init__`,
spider.py lines 119-139). -/
def freshPP (u : UrlCfg) (ig : Bool) : PagePageState :=
  ⟨u, ig, [], [], [], [], []⟩

/-- `PagePage._process_url` (spider.py lines 192-202): resolve the URL
source from `self.url`, the explicit `results` argument, or the father
page's result.  A non-empty flat list becomes a single page; an empty or
nested list is taken as the list of pages itself. -/
def _process_url (cfg : UrlCfg) (results : Option (List (List String)))
    (father_result : List (List String)) : List (List String) :=
  match cfg with
  | .noUrl => results.getD father_result
  | .flat us => if us.isEmpty then [] else [us]
  | .nested uss => uss

/-- Append `x` to the last bucket of a bucket list, as the source's
`self.result[-1].append(...)` does.  (In `parse` the outer list is never
empty at this point, since an empty bucket is appended first.) -/
def appendLast : List (List α) → α → List (List α)
  | [], _ => []
  | [b], x => [b ++ [x]]
  | b :: c :: rest, x => b :: appendLast (c :: rest) x

/-- The body of the inner URL loop of `PagePage.parse` (spider.py lines
219-226): if the URL is not recorded, or the node ignores records, submit
a fetch task to the shared pool (`add_task` returns a fresh task name,
here the index `st.pool.length`), append the resulting `AsyncResult`
handle to the current result bucket and to `result_page_html`, and record
the URL. -/
def submitUrl (st : PagePageState) (url : String) : PagePageState :=
  if url ∉ st.records ∨ st.ignore_records = true then
    { st with
      pool := st.pool ++ [url]
      result := appendLast st.result st.pool.length
      result_page_html := appendLast st.result_page_html st.pool.length
      records := st.records ++ [url] }
  else st

/-- The body of the outer page loop of `PagePage.parse` (spider.py lines
215-226): append an empty bucket to `result`, `result_page_html` and
`result_page_xpath` (the xpath bucket stays empty because the html is
async), then run the URL loop over the page. -/
def parsePageBucket (st : PagePageState) (page : List String) : PagePageState :=
  page.foldl submitUrl
    { st with
      result := st.result ++ [[]]
      result_page_html := st.result_page_html ++ [[]]
      result_page_xpath := st.result_page_xpath ++ [[]] }

/-- `PagePage.parse` (spider.py lines 204-227): resolve the URL source and
run the page loop.  (Setting `web_get_fn` to `get_web_html_async` and
injecting headers has no observable effect on the modelled state; the
rate-limiting sleep is a timing effect outside the model.) -/
def PagePage_parse (st : PagePageState) (results : Option (List (List String)))
    (father_result : List (List String)) : PagePageState :=
  (_process_url st.url results father_result).foldl parsePageBucket st

/-- The URL-accumulation loop of `UrlIdxPagesPage.parse` (spider.py lines
249-258): call `url_fn` with increasing index, stopping when it returns
`''` or `None` (here `f : Nat → Option String`, already applied to the
base URL), and collect one single-URL page `[url]` per successful call.
`fuel` bounds the unbounded source loop; `none` means the loop is still
running after `fuel` iterations. -/
def buildUrls (f : Nat → Option String) : Nat → Nat → Option (List (List String))
  | 0, _ => none
  | fuel + 1, idx =>
    match f idx with
    | none => some []
    | some u =>
      if u = "" then some []
      else (buildUrls f fuel (idx + 1)).map (fun rest => [u] :: rest)

/-- `UrlIdxPagesPage.parse` (spider.py lines 248-259): accumulate the
URL list into `self.url` (which the constructor initialises to `[]`, so
its runtime shape is a list of single-URL lists, i.e. `nested`), then
delegate to `PagePage.parse` with no explicit results. -/
def UrlIdxPagesPage_parse (f : Nat → Option String) (fuel : Nat)
    (st : PagePageState) : Option PagePageState :=
  match st.url with
  | .nested uss =>
    (buildUrls f fuel 0).map fun built =>
      PagePage_parse { st with url := .nested (uss ++ built) } none []
  | _ => none

/-- A document produced by `etree.HTML`: for this model a document is its
XPath-evaluation behaviour, mapping an XPath expression to the list of
matches (the source stores matched `etree._Element` objects; matches are
modelled as strings). -/
structure XDoc where
  xeval : String → List String

/-- The `xpath` configuration of an `ItemsPage`: a single expression
string, or a list of alternative expressions (spider.py line 125). -/
inductive XpathCfg where
  | single (s : String)
  | alts (l : List String)

/-- Python truthiness of `self.xpath` as used by `not self.xpath` in
`ItemsPage.parse` (spider.py line 391): the empty string and the empty
list are falsy. -/
def xpathFalsy : XpathCfg → Bool
  | .single s => s = ""
  | .alts l => l.isEmpty

/-- The alternatives loop of `ItemsPage.parse_xpath` (spider.py lines
358-361): evaluate the expressions in order and return the first
non-empty match list, or the last (empty) one. -/
def firstNonEmpty (d : XDoc) : List String → List String
  | [] => []
  | e :: es => let r := d.xeval e; if r.isEmpty then firstNonEmpty d es else r

/-- `ItemsPage.parse_xpath` (spider.py lines 349-365) applied to the value
of the `xpath_r` local (`none` models the Python value `None`, e.g. when
`etree.HTML` yields nothing).  Returns the documents appended to the
current `result_page_xpath` bucket, the matches extended onto the current
`result` bucket, and the boolean result. -/
def parse_xpath (cfg : XpathCfg) (xv : Option XDoc) :
    List XDoc × List String × Bool :=
  match xv with
  | none => ([], [], false)
  | some d =>
    match cfg with
    | .single s =>
      let r := d.xeval s
      ([d], r, !r.isEmpty)
    | .alts l =>
      if l.isEmpty then ([d], [], false)
      else
        let r := firstNonEmpty d l
        ([d], r, !r.isEmpty)

/-- A value an `AsyncResult.get()` call can resolve to inside
`ItemsPage.parse`: page text, the fetch failure tuple
`(TaskStatus.NOT_SUCCEEDED, msg)`, or a bare pool status (the comment at
spider.py line 81 notes `get` can also return `TaskStatus.NOT_SUCCEED`
itself). -/
inductive RVal where
  | rstr (s : String)
  | rfail (m : String)
  | rstat

/-- An item of one page-bucket fed to `ItemsPage.parse`: a raw html
string, an `etree._Element` (the declared item type at spider.py line 367
is `Union[str, etree._Element]`), or an `AsyncResult` carrying the value
its `get()` resolves to. -/
inductive PItem where
  | pstr (s : String)
  | pelem (d : XDoc)
  | pasync (v : RVal)

/-- The exceptions the per-item code of `ItemsPage.parse` can raise:
evaluating the `xpath_r` local before any assignment
(`UnboundLocalError`), and passing a non-string to `BeautifulSoup`
(`TypeError`). -/
inductive PyErr where
  | unboundLocal
  | typeError
deriving DecidableEq

/-- The item's value after the `AsyncResult` resolution step at the top of
the item loop (spider.py lines 380-383). -/
inductive RCur where
  | cstr (s : String)
  | celem (d : XDoc)
  | cstat

/-- Configuration of an `ItemsPage`: the xpath expressions, the optional
BeautifulSoup extraction (`findall` models
`BeautifulSoup(r, 'html.parser').find_all(self.findall_fn)` applied to the
raw html string), and the `alternative_bs4` flag (spider.py lines
337-347). -/
structure ItemsCfg where
  xpath : XpathCfg
  findall : Option (String → List String)
  alternative_bs4 : Bool

/-- The body of the item loop of `ItemsPage.parse` (spider.py lines
379-394).  `hp` models `etree.HTML` (`none` = the parser yields nothing);
`xl` is the state of the `xpath_r` local: `none` when it has never been
assigned in this `parse` call, `some xv` when it holds `xv` (possibly the
Python value `None`).  On success returns the new local state and the
documents / bs4 objects / matches appended for this item; a failed fetch
item is skipped, leaving everything unchanged. -/
def itemStep (cfg : ItemsCfg) (hp : String → Option XDoc)
    (xl : Option (Option XDoc)) (it : PItem) :
    Except PyErr (Option (Option XDoc) × List XDoc × List String × List String) :=
  let r? : Option RCur :=
    match it with
    | .pstr s => some (.cstr s)
    | .pelem d => some (.celem d)
    | .pasync (.rstr s) => some (.cstr s)
    | .pasync (.rfail _) => none
    | .pasync .rstat => some .cstat
  match r? with
  | none => .ok (xl, [], [], [])
  | some r =>
    let xl' : Option (Option XDoc) :=
      match r with
      | .cstr s => some (hp s)
      | _ => xl
    match xl' with
    | none => .error .unboundLocal
    | some xv =>
      let res := parse_xpath cfg.xpath xv
      match cfg.findall with
      | none => .ok (some xv, res.1, [], res.2.1)
      | some f =>
        if xpathFalsy cfg.xpath || (!res.2.2 && cfg.alternative_bs4) then
          match r with
          | .cstr s => .ok (some xv, res.1, [s], res.2.1 ++ f s)
          | _ => .error .typeError
        else .ok (some xv, res.1, [], res.2.1)

/-- The item loop of `ItemsPage.parse` over one page-bucket, threading the
`xpath_r` local and concatenating the per-item appends. -/
def parseBucket (cfg : ItemsCfg) (hp : String → Option XDoc) :
    Option (Option XDoc) → List PItem →
    Except PyErr (Option (Option XDoc) × List XDoc × List String × List String)
  | xl, [] => .ok (xl, [], [], [])
  | xl, it :: rest =>
    match itemStep cfg hp xl it with
    | .error e => .error e
    | .ok (xl', xds, bs, its) =>
      match parseBucket cfg hp xl' rest with
      | .error e => .error e
      | .ok (xl'', xds2, bs2, its2) =>
        .ok (xl'', xds ++ xds2, bs ++ bs2, its ++ its2)

/-- Result state of an `ItemsPage` node: the per-page buckets of extracted
matches, stored xpath documents, and stored bs4 documents. -/
structure ItemsState where
  result : List (List String)
  result_page_xpath : List (List XDoc)
  result_page_bs4 : List (List String)

/-- The page loop of `ItemsPage.parse` (spider.py lines 374-394): for each
page append one bucket to each result container, filled by the item loop.
The `xpath_r` local persists across pages within one call. -/
def parsePages (cfg : ItemsCfg) (hp : String → Option XDoc) :
    Option (Option XDoc) → ItemsState → List (List PItem) →
    Except PyErr ItemsState
  | _, st, [] => .ok st
  | xl, st, pg :: rest =>
    match parseBucket cfg hp xl pg with
    | .error e => .error e
    | .ok (xl', xds, bs, its) =>
      parsePages cfg hp xl'
        { result := st.result ++ [its]
          result_page_xpath := st.result_page_xpath ++ [xds]
          result_page_bs4 := st.result_page_bs4 ++ [bs] } rest

/-- `ItemsPage.parse` (spider.py lines 367-395): run the page loop with
the `xpath_r` local initially unassigned. -/
def ItemsPage_parse (cfg : ItemsCfg) (hp : String → Option XDoc)
    (st : ItemsState) (results : List (List PItem)) : Except PyErr ItemsState :=
  parsePages cfg hp none st results

/-- The nested result tree assembled by `Actions.perform` (spider.py lines
475-495): a node's entry is either its raw perform result (modelled by an
opaque `Nat` payload) or, when it has children, a mapping from keys to
subtrees. -/
inductive RTree where
  | leaf (v : Nat)
  | branch (entries : List (String × RTree))

mutual
/-- A page node as seen by `Actions.perform`: its name, its `before_func`
(`none` models a `None` hook; `some b` models a hook returning `b`), the
presence of an `after_func`, its perform result (opaque payload), and its
`next_pages`.  Hooks are modelled as pure: their calls are recorded in the
event trace. -/
inductive ANode where
  | mk (name : String) (before_func : Option Bool) (after_func : Bool)
       (res : Nat) (next_pages : AForest)

/-- The `next_pages` dict of a node: a name-keyed forest in insertion
order. -/
inductive AForest where
  | nil
  | cons (page : ANode) (rest : AForest)
end

/-- Observable calls made during `Actions.perform`: a `before_func`
invocation, a `p.perform(...)` invocation, and an `after_func`
invocation, each tagged with the node name. -/
inductive Ev where
  | beforeEv (n : String)
  | performEv (n : String)
  | afterEv (n : String)
deriving DecidableEq

mutual
/-- The body of the `_perform` loop of `Actions.perform` for one node
(spider.py lines 476-489): call `before_func` if present; when it is
absent or returns true, perform the node, call `after_func` if present,
then recurse into `next_pages`, storing the node's own result under the
reserved key `__name__` when it has children, or directly otherwise.
Returns the event trace and the `results` entry written for this node
(`none` when the gate failed and nothing was written). -/
def performOne : ANode → List Ev × Option (String × RTree)
  | .mk n before after res children =>
    let bevs : List Ev := match before with | none => [] | some _ => [.beforeEv n]
    let gate : Bool := match before with | none => true | some b => b
    if gate then
      let aevs : List Ev := if after then [.afterEv n] else []
      match children with
      | .nil => (bevs ++ [.performEv n] ++ aevs, some (n, .leaf res))
      | .cons c cs =>
        let sub := performForest (.cons c cs)
        (bevs ++ [.performEv n] ++ aevs ++ sub.1,
         some (n, .branch (("__" ++ n ++ "__", RTree.leaf res) :: sub.2)))
    else (bevs, none)

/-- The `for n, p in page.items()` loop of `_perform` (spider.py lines
476-490) over a forest of sibling nodes: concatenate the event traces and
collect the entries written into the `results` dict. -/
def performForest : AForest → List Ev × List (String × RTree)
  | .nil => ([], [])
  | .cons c cs =>
    let r1 := performOne c
    let r2 := performForest cs
    (r1.1 ++ r2.1,
     (match r1.2 with | some pr => [pr] | none => []) ++ r2.2)
end

/-- `Actions.perform` (spider.py lines 474-495): start the pool (no
observable effect here), initialise `results = {}`, and run `_perform`
over the root pages. -/
def Actions_perform (roots : AForest) : List Ev × List (String × RTree) :=
  performForest roots

/-- The list of nodes of a forest, in iteration order. -/
def AForest.toList : AForest → List ANode
  | .nil => []
  | .cons c cs => c :: AForest.toList cs

/-- A heap of Python dict objects holding root-page registrations
(name ↦ page id).  A dict is identified by its index; the heap models
Python object identity so that aliasing of the mutable default argument
`pages={}` of `Actions.__init__` (spider.py line 409) is observable. -/
structure PyHeap where
  dicts : List (List (String × Nat))
deriving DecidableEq

/-- The heap at module-initialisation time: Python evaluates the default
expression `pages={}` once, when `Actions.__init__` is defined, creating
the single default dict (object 0). -/
def initHeap : PyHeap := ⟨[[]]⟩

/-- The object id of the default `pages` dict. -/
def defaultPagesRef : Nat := 0

/-- `Actions.__init__` (spider.py lines 409-415): `self.pages = pages`.
With no explicit `pages` argument the instance binds the pre-existing
default dict object; with an explicit argument a new dict is allocated.
Returns the heap and the object id bound to `self.pages`. -/
def Actions_init (h : PyHeap) (pages : Option (List (String × Nat))) :
    PyHeap × Nat :=
  match pages with
  | none => (h, defaultPagesRef)
  | some d => (⟨h.dicts ++ [d]⟩, h.dicts.length)

/-- Python dict assignment `d[k] = v`: overwrite the existing entry for
`k` in place, or append a new one. -/
def dictInsert (d : List (String × Nat)) (k : String) (v : Nat) :
    List (String × Nat) :=
  if d.any (fun kv => kv.1 == k) then
    d.map (fun kv => if kv.1 == k then (k, v) else kv)
  else d ++ [(k, v)]

/-- Python dict lookup `d.get(k)`. -/
def dictLookup (d : List (String × Nat)) (k : String) : Option Nat :=
  (d.find? (fun kv => kv.1 == k)).map (fun kv => kv.2)

/-- The root-registration path of `Actions.add_page` (spider.py lines
442-469) for `father = ''`: after the parameter checks and hook wiring,
execute `self.pages[name] = page` on the dict object `pagesRef` points
to. -/
def Actions_add_page_root (h : PyHeap) (pagesRef : Nat) (name : String)
    (pageId : Nat) : PyHeap :=
  ⟨h.dicts.set pagesRef (dictInsert (h.dicts.getD pagesRef []) name pageId)⟩

/-- Two orchestrators constructed as `Actions()` with no `pages` argument:
the resulting heap and the two `self.pages` object ids. -/
def twoDefaultOrchestrators : PyHeap × Nat × Nat :=
  let i1 := Actions_init initHeap none
  let i2 := Actions_init i1.1 none
  (i2.1, i1.2, i2.2)

/-- Register a root page named `root` (page id 7) through the first
orchestrator, then read the second orchestrator's `pages` mapping at key
`root`. -/
def crossInstanceLookup : Option Nat :=
  let s := twoDefaultOrchestrators
  let h := Actions_add_page_root s.1 s.2.1 "root" 7
  dictLookup (h.dicts.getD s.2.2 []) "root"

/-- The sublist of `urls` actually submitted by the URL loop of
`PagePage.parse` when `ignore_records` is off: each URL is kept only the
first time it is met and not already in `records` (specification of the
loop for the characterisation lemmas below). -/
def newUrls (records : List String) : List String → List String
  | [] => []
  | u :: us => if u ∈ records then newUrls records us else u :: newUrls (records ++ [u]) us

/-- Two fresh fetch nodes of one orchestrator: `Actions.add_page` injects
the same shared `_async_task_pool` into both (spider.py line 462), while
each node keeps its own `_records` dict from `BasePage.__init__`
(spider.py line 139).  Node A parses `[[u]]`, then node B parses `[[u]]`
against the pool state A left behind; the value is the final pool (the
list of submitted fetch tasks). -/
def runTwoNodes (u : String) : List String :=
  let stA := PagePage_parse (freshPP .noUrl false) (some [[u]]) []
  let stB := PagePage_parse { freshPP .noUrl false with pool := stA.pool } (some [[u]]) []
  stB.pool

/-- A concrete `url_fn(base, ·)` for exercising `UrlIdxPagesPage.parse`:
two pages then exhaustion. -/
def urlFn2 : Nat → Option String :=
  fun i => if i = 0 then some "a" else if i = 1 then some "b" else none

/-- The URLs produced by `urlFn2` on indices 0 and 1. -/
def gFn2 : Nat → String :=
  fun i => if i = 0 then "a" else "b"

/-! ### Helper lemmas about the fetch-node state machine -/

theorem appendLast_length (l : List (List α)) (x : α) :
    (appendLast l x).length = l.length := by
  induction l with
  | nil => rfl
  | cons b rest ih =>
    cases rest with
    | nil => rfl
    | cons c r => simpa [appendLast] using ih

theorem submitUrl_result_length (st : PagePageState) (u : String) :
    (submitUrl st u).result.length = st.result.length := by
  unfold submitUrl
  split <;> simp [appendLast_length]

theorem foldl_submitUrl_result_length (page : List String) :
    ∀ st : PagePageState, (page.foldl submitUrl st).result.length = st.result.length := by
  induction page with
  | nil => intro st; rfl
  | cons u us ih => intro st; simpa [ih] using submitUrl_result_length st u

theorem parsePageBucket_result_length (st : PagePageState) (page : List String) :
    (parsePageBucket st page).result.length = st.result.length + 1 := by
  simp [parsePageBucket, foldl_submitUrl_result_length]

theorem foldl_parsePageBucket_result_length (rs : List (List String)) :
    ∀ st : PagePageState,
      (rs.foldl parsePageBucket st).result.length = st.result.length + rs.length := by
  induction rs with
  | nil => intro st; rfl
  | cons pg rest ih =>
    intro st
    simp [List.foldl_cons, ih, parsePageBucket_result_length]
    omega

theorem foldl_submitUrl_pool_records (page : List String) :
    ∀ st : PagePageState, st.ignore_records = false →
      (page.foldl submitUrl st).pool = st.pool ++ newUrls st.records page ∧
      (page.foldl submitUrl st).records = st.records ++ newUrls st.records page ∧
      (page.foldl submitUrl st).ignore_records = false := by
  induction page with
  | nil => intro st h; simp [newUrls, h]
  | cons u us ih =>
    intro st h
    by_cases hmem : u ∈ st.records
    · have hstep : submitUrl st u = st := by
        unfold submitUrl
        rw [if_neg]
        simp [hmem, h]
      simpa [List.foldl_cons, hstep, newUrls, hmem] using ih st h
    · have hstep : submitUrl st u =
        { st with
          pool := st.pool ++ [u]
          result := appendLast st.result st.pool.length
          result_page_html := appendLast st.result_page_html st.pool.length
          records := st.records ++ [u] } := by
        unfold submitUrl
        rw [if_pos (Or.inl hmem)]
      obtain ⟨h1, h2, h3⟩ := ih
        { st with
          pool := st.pool ++ [u]
          result := appendLast st.result st.pool.length
          result_page_html := appendLast st.result_page_html st.pool.length
          records := st.records ++ [u] } h
      refine ⟨?_, ?_, ?_⟩ <;>
        simp [List.foldl_cons, hstep, newUrls, hmem, h1, h2, h3]

theorem foldl_submitUrl_pool_ignore (page : List String) :
    ∀ st : PagePageState, st.ignore_records = true →
      (page.foldl submitUrl st).pool = st.pool ++ page ∧
      (page.foldl submitUrl st).ignore_records = true := by
  induction page with
  | nil => intro st h; simp [h]
  | cons u us ih =>
    intro st h
    have hstep : submitUrl st u =
        { st with
          pool := st.pool ++ [u]
          result := appendLast st.result st.pool.length
          result_page_html := appendLast st.result_page_html st.pool.length
          records := st.records ++ [u] } := by
      unfold submitUrl
      rw [if_pos (Or.inr h)]
    obtain ⟨h1, h2⟩ := ih
      { st with
        pool := st.pool ++ [u]
        result := appendLast st.result st.pool.length
        result_page_html := appendLast st.result_page_html st.pool.length
        records := st.records ++ [u] } h
    exact ⟨by simp [List.foldl_cons, hstep, h1], by simp [List.foldl_cons, hstep, h2]⟩

theorem newUrls_append (ys : List String) :
    ∀ (xs r : List String),
      newUrls r (xs ++ ys) = newUrls r xs ++ newUrls (r ++ newUrls r xs) ys := by
  intro xs
  induction xs with
  | nil => intro r; simp [newUrls]
  | cons u us ih =>
    intro r
    by_cases hmem : u ∈ r
    · simp [newUrls, hmem, ih r]
    · show newUrls r (u :: (us ++ ys)) = newUrls r (u :: us) ++ _
      rw [newUrls, if_neg hmem, newUrls, if_neg hmem, ih (r ++ [u])]
      simp [List.append_assoc]

theorem parsePageBucket_pool_records (st : PagePageState) (page : List String)
    (h : st.ignore_records = false) :
    (parsePageBucket st page).pool = st.pool ++ newUrls st.records page ∧
    (parsePageBucket st page).records = st.records ++ newUrls st.records page ∧
    (parsePageBucket st page).ignore_records = false := by
  unfold parsePageBucket
  exact foldl_submitUrl_pool_records page _ h

theorem foldl_parsePageBucket_pool (rs : List (List String)) :
    ∀ st : PagePageState, st.ignore_records = false →
      (rs.foldl parsePageBucket st).pool = st.pool ++ newUrls st.records rs.flatten ∧
      (rs.foldl parsePageBucket st).records = st.records ++ newUrls st.records rs.flatten ∧
      (rs.foldl parsePageBucket st).ignore_records = false := by
  induction rs with
  | nil => intro st h; simp [newUrls, h]
  | cons pg rest ih =>
    intro st h
    obtain ⟨h1, h2, h3⟩ := parsePageBucket_pool_records st pg h
    obtain ⟨g1, g2, g3⟩ := ih (parsePageBucket st pg) h3
    refine ⟨?_, ?_, g3⟩ <;>
      simp [List.foldl_cons, g1, g2, h1, h2, List.flatten_cons,
        newUrls_append, List.append_assoc]

theorem parsePageBucket_pool_ignore (st : PagePageState) (page : List String)
    (h : st.ignore_records = true) :
    (parsePageBucket st page).pool = st.pool ++ page ∧
    (parsePageBucket st page).ignore_records = true := by
  unfold parsePageBucket
  exact foldl_submitUrl_pool_ignore page _ h

theorem foldl_parsePageBucket_pool_ignore (rs : List (List String)) :
    ∀ st : PagePageState, st.ignore_records = true →
      (rs.foldl parsePageBucket st).pool = st.pool ++ rs.flatten ∧
      (rs.foldl parsePageBucket st).ignore_records = true := by
  induction rs with
  | nil => intro st h; simp [h]
  | cons pg rest ih =>
    intro st h
    obtain ⟨h1, h2⟩ := parsePageBucket_pool_ignore st pg h
    obtain ⟨g1, g2⟩ := ih (parsePageBucket st pg) h2
    exact ⟨by simp [List.foldl_cons, g1, h1, List.flatten_cons], g2⟩

theorem newUrls_count (u : String) :
    ∀ (us r : List String),
      (newUrls r us).count u = if u ∈ us ∧ u ∉ r then 1 else 0 := by
  intro us
  induction us with
  | nil => intro r; simp [newUrls]
  | cons v vs ih =>
    intro r
    by_cases hmem : v ∈ r
    · rw [newUrls, if_pos hmem, ih r]
      by_cases huv : u = v
      · subst huv; simp [hmem]
      · simp [List.mem_cons, huv]
    · rw [newUrls, if_neg hmem, List.count_cons, ih (r ++ [v])]
      by_cases huv : u = v
      · subst huv; simp [hmem]
      · simp [List.mem_cons, List.mem_append, huv, Ne.symm huv]

theorem parsePages_ok_length (cfg : ItemsCfg) (hp : String → Option XDoc) :
    ∀ (pages : List (List PItem)) (xl : Option (Option XDoc)) (st st' : ItemsState),
      parsePages cfg hp xl st pages = .ok st' →
      st'.result.length = st.result.length + pages.length := by
  intro pages
  induction pages with
  | nil =>
    intro xl st st' h
    simp only [parsePages, Except.ok.injEq] at h
    simp [← h]
  | cons pg rest ih =>
    intro xl st st' h
    simp only [parsePages] at h
    cases hb : parseBucket cfg hp xl pg with
    | error e => rw [hb] at h; cases h
    | ok tup =>
      obtain ⟨xl', xds, bs, its⟩ := tup
      rw [hb] at h
      have := ih xl' _ st' h
      simp at this ⊢
      omega

/-! ### Claim theorems C3, C4, C5 -/

/-- Claim C5: for a single fresh `PagePage` node whose resolved URL source
contains the same URL twice, `parse` submits exactly one fetch task for
that URL under default settings (`ignore_records = False`), and exactly
two tasks with `ignore_records = True`. -/
theorem dedup_url_submission (u : String) (rs : List (List String))
    (h : rs.flatten.count u = 2) :
    ((PagePage_parse (freshPP .noUrl false) (some rs) []).pool).count u = 1 ∧
    ((PagePage_parse (freshPP .noUrl true) (some rs) []).pool).count u = 2 := by
  have hmem : u ∈ rs.flatten := by
    by_contra hnot
    rw [List.count_eq_zero_of_not_mem hnot] at h
    omega
  constructor
  · have h1 := (foldl_parsePageBucket_pool rs (freshPP .noUrl false) rfl).1
    rw [show PagePage_parse (freshPP .noUrl false) (some rs) [] =
        rs.foldl parsePageBucket (freshPP .noUrl false) from rfl, h1]
    simp only [freshPP, List.nil_append]
    rw [newUrls_count]
    simp [hmem]
  · have h1 := (foldl_parsePageBucket_pool_ignore rs (freshPP .noUrl true) rfl).1
    rw [show PagePage_parse (freshPP .noUrl true) (some rs) [] =
        rs.foldl parsePageBucket (freshPP .noUrl true) from rfl, h1]
    simpa [freshPP] using h

/-- Witness for C5 at the concrete source `[["u", "u"]]`. -/
theorem dedup_url_submission_witness :
    ((PagePage_parse (freshPP .noUrl false) (some [["u", "u"]]) []).pool).count "u" = 1 ∧
    ((PagePage_parse (freshPP .noUrl true) (some [["u", "u"]]) []).pool).count "u" = 2 :=
  dedup_url_submission "u" [["u", "u"]] (by decide)

/-- Claim C3 (counterexample): the dedup record set is NOT shared
orchestrator-wide.  Two fetch nodes of one orchestrator share the task
pool but each has its own `_records` dict, so after node A submits a task
for URL `"u"`, node B submits a second task for `"u"`: the shared pool
ends up with two fetch tasks for the same URL. -/
theorem dedup_not_shared_counterexample : (runTwoNodes "u").count "u" = 2 := by
  decide

/-- Claim C3 (amended): the seen-URL dedup record set is per-node, not
orchestrator-wide.  A single fetch node with default dedup settings never
submits two tasks for the same URL, but a second fetch node of the same
orchestrator (sharing the pool, with its own fresh records) submits its
own task for a URL the first node already fetched. -/
theorem dedup_records_per_node :
    (∀ (rs : List (List String)) (u : String),
      ((PagePage_parse (freshPP .noUrl false) (some rs) []).pool).count u ≤ 1) ∧
    (runTwoNodes "u").count "u" = 2 := by
  constructor
  · intro rs u
    have h1 := (foldl_parsePageBucket_pool rs (freshPP .noUrl false) rfl).1
    rw [show PagePage_parse (freshPP .noUrl false) (some rs) [] =
        rs.foldl parsePageBucket (freshPP .noUrl false) from rfl, h1]
    simp only [freshPP, List.nil_append]
    rw [newUrls_count]
    split <;> omega
  · decide

/-- Claim C4: for a `PagePage` (URL source given explicitly) and an
`ItemsPage` whose result is empty before the call, `parse` on an input of
`n` page-buckets leaves exactly `n` page-buckets in `result` (for
`ItemsPage`, whenever `parse` completes without raising). -/
theorem bucket_count_preservation
    (stP : PagePageState) (rs father : List (List String))
    (hPurl : stP.url = .noUrl) (hP : stP.result = [])
    (cfg : ItemsCfg) (hp : String → Option XDoc) (stI : ItemsState)
    (rsI : List (List PItem)) (stI' : ItemsState)
    (hI : stI.result = []) (hok : ItemsPage_parse cfg hp stI rsI = .ok stI') :
    (PagePage_parse stP (some rs) father).result.length = rs.length ∧
    stI'.result.length = rsI.length := by
  constructor
  · unfold PagePage_parse
    rw [hPurl]
    simp only [_process_url, Option.getD]
    rw [foldl_parsePageBucket_result_length rs stP, hP]
    simp
  · have := parsePages_ok_length cfg hp rsI none stI stI' hok
    rw [hI] at this
    simpa using this

/-- Witness for C4: a two-bucket URL source and a two-bucket extraction
input, both yielding exactly two result buckets. -/
theorem bucket_count_preservation_witness :
    (PagePage_parse (freshPP .noUrl false) (some [["a"], ["b"]]) []).result.length = 2 ∧
    (ItemsState.mk [[], []] [[], []] [[], []]).result.length = 2 :=
  bucket_count_preservation (freshPP .noUrl false) [["a"], ["b"]] [] rfl rfl
    ⟨.single "p", none, false⟩ (fun _ => none) ⟨[], [], []⟩
    [[.pstr "h"], [.pstr "i", .pstr "j"]] ⟨[[], []], [[], []], [[], []]⟩ rfl rfl

theorem parseBucket_skip_failed (cfg : ItemsCfg) (hp : String → Option XDoc)
    (m : String) (ys : List PItem) :
    ∀ (xs : List PItem) (xl : Option (Option XDoc)),
      parseBucket cfg hp xl (xs ++ .pasync (.rfail m) :: ys) =
      parseBucket cfg hp xl (xs ++ ys) := by
  intro xs
  induction xs with
  | nil =>
    intro xl
    show parseBucket cfg hp xl (.pasync (.rfail m) :: ys) = _
    cases h : parseBucket cfg hp xl ys <;>
      simp [parseBucket, itemStep, h]
  | cons it rest ih =>
    intro xl
    show parseBucket cfg hp xl (it :: (rest ++ _)) = parseBucket cfg hp xl (it :: (rest ++ ys))
    cases he : itemStep cfg hp xl it with
    | error e => simp [parseBucket, he]
    | ok tup =>
      obtain ⟨xl', xds, bs, its⟩ := tup
      simp only [parseBucket, he, ih xl']

theorem parsePages_skip_failed (cfg : ItemsCfg) (hp : String → Option XDoc)
    (m : String) (xs ys : List PItem) (qs : List (List PItem)) :
    ∀ (ps : List (List PItem)) (xl : Option (Option XDoc)) (st : ItemsState),
      parsePages cfg hp xl st (ps ++ (xs ++ .pasync (.rfail m) :: ys) :: qs) =
      parsePages cfg hp xl st (ps ++ (xs ++ ys) :: qs) := by
  intro ps
  induction ps with
  | nil =>
    intro xl st
    show parsePages cfg hp xl st ((xs ++ _) :: qs) = parsePages cfg hp xl st ((xs ++ ys) :: qs)
    simp only [parsePages, parseBucket_skip_failed cfg hp m ys xs xl]
  | cons pg rest ih =>
    intro xl st
    show parsePages cfg hp xl st (pg :: (rest ++ _)) = parsePages cfg hp xl st (pg :: (rest ++ _))
    cases hb : parseBucket cfg hp xl pg with
    | error e => simp [parsePages, hb]
    | ok tup =>
      obtain ⟨xl', xds, bs, its⟩ := tup
      simp only [parsePages, hb, ih xl']

/-! ### Claim theorems C1, C2 -/

/-- Claim C1: an item of `ItemsPage.parse` that is an `AsyncResult` whose
`get()` resolves to the fetch-failure marker (the tuple whose first
element is the not-succeeded status) is skipped: the whole `parse` run is
identical to the run on the same input with that item removed, so the
item contributes nothing to its page's bucket and causes no exception. -/
theorem failed_fetch_item_skipped (cfg : ItemsCfg) (hp : String → Option XDoc)
    (st : ItemsState) (m : String) (ps qs : List (List PItem))
    (xs ys : List PItem) :
    ItemsPage_parse cfg hp st (ps ++ (xs ++ .pasync (.rfail m) :: ys) :: qs) =
    ItemsPage_parse cfg hp st (ps ++ (xs ++ ys) :: qs) := by
  unfold ItemsPage_parse
  exact parsePages_skip_failed cfg hp m xs ys qs ps none st

/-- Claim C2 (failing input): feeding `ItemsPage.parse` a page whose first
item is an `etree._Element` — a shape its signature
`List[List[Union[str, etree._Element]]]` explicitly allows, and the shape
a chained `ItemsPage` father produces — takes neither the `AsyncResult`
branch nor the `isinstance(r, str)` branch, so line 388 evaluates the
local `xpath_r` before any assignment and `parse` raises
`UnboundLocalError` instead of yielding an empty bucket. -/
theorem elem_item_raises_unbound_local :
    ItemsPage_parse ⟨.single "p", none, false⟩ (fun _ => none) ⟨[], [], []⟩
      [[.pelem ⟨fun _ => []⟩]] = .error .unboundLocal := rfl

theorem pollLoop_query_task (T : Nat) (v : PoolVal) (hv : v ≠ .notFinished) :
    ∀ (fuel c : Nat), c ≤ T → T + 1 ≤ c + fuel →
      pollLoop (query_task T v) fuel c = some (v, T + 1) := by
  intro fuel
  induction fuel with
  | zero => intro c hc hf; omega
  | succ n ih =>
    intro c hc hf
    by_cases hlt : c < T
    · have : query_task T v c = .notFinished := by simp [query_task, hlt]
      simp only [pollLoop, this, if_pos rfl]
      exact ih (c + 1) (by omega) (by omega)
    · have hceq : c = T := by omega
      have : query_task T v c = v := by simp [query_task, hlt]
      simp only [pollLoop, this, if_neg hv]
      rw [hceq]

/-! ### Claim theorem C6 -/

/-- Claim C6: `AsyncResult.get()` resolves a task that terminates with
value `v` after `T` pool reports by polling exactly up to the first
terminal report (the query counter moves from `c` to `T + 1`) and caching
`v`; once a terminal value is cached, every later call — from any query
counter, even with no fuel — returns the same value with the counter
unchanged, i.e. without querying the pool again. -/
theorem async_result_get_idempotent (T : Nat) (v : PoolVal)
    (c fuel fuel₂ c₂ : Nat) (hv : v ≠ .notFinished) (hc : c ≤ T)
    (hf : T + 1 ≤ c + fuel) :
    AsyncResult_get (query_task T v) fuel c none = some (v, T + 1, some v) ∧
    AsyncResult_get (query_task T v) fuel₂ c₂ (some v) = some (v, c₂, some v) := by
  constructor
  · unfold AsyncResult_get
    rw [pollLoop_query_task T v hv fuel c hc hf]
  · rfl

/-- Witness for C6: a task finishing after two polls, resolved from query
counter 0 with fuel 3, then re-read with no fuel at counter 9. -/
theorem async_result_get_idempotent_witness :
    AsyncResult_get (query_task 2 (.ok "html")) 3 0 none =
      some (.ok "html", 3, some (.ok "html")) ∧
    AsyncResult_get (query_task 2 (.ok "html")) 0 9 (some (.ok "html")) =
      some (.ok "html", 9, some (.ok "html")) :=
  async_result_get_idempotent 2 (.ok "html") 0 3 0 9 (by decide) (by decide) (by decide)

theorem buildUrls_spec (f : Nat → Option String) (g : Nat → String) (k : Nat)
    (h1 : ∀ i, i < k → f i = some (g i) ∧ g i ≠ "")
    (h2 : f k = none ∨ f k = some "") :
    ∀ (fuel j : Nat), j ≤ k → k + 1 ≤ j + fuel →
      buildUrls f fuel j = some ((List.range' j (k - j)).map fun i => [g i]) := by
  intro fuel
  induction fuel with
  | zero => intro j hj hf; omega
  | succ n ih =>
    intro j hj hf
    by_cases hlt : j < k
    · obtain ⟨hfj, hgj⟩ := h1 j hlt
      have hrest := ih (j + 1) (by omega) (by omega)
      have hkj : k - j = (k - (j + 1)) + 1 := by omega
      simp only [buildUrls, hfj, if_neg hgj, hrest, Option.map_some]
      rw [hkj, List.range'_succ]
      simp
    · have hjeq : j = k := by omega
      subst hjeq
      rcases h2 with h2 | h2 <;> simp [buildUrls, h2]

/-! ### Claim theorem C7 -/

/-- Claim C7: when `url_fn` yields a non-empty URL for indices
`0..k-1` and exhaustion (empty string or `None`) at index `k`, the
URL-accumulation loop of `UrlIdxPagesPage.parse` terminates after `k + 1`
calls, building exactly the `k` single-URL page-buckets
`[[g 0], ..., [g (k-1)]]`, and the subsequent `PagePage.parse` run on a
fresh node leaves exactly `k` page-buckets in `result`. -/
theorem paginated_fetch_k_buckets (k : Nat) (f : Nat → Option String)
    (g : Nat → String) (fuel : Nat)
    (h1 : ∀ i, i < k → f i = some (g i) ∧ g i ≠ "")
    (h2 : f k = none ∨ f k = some "") (hf : k + 1 ≤ fuel) :
    UrlIdxPagesPage_parse f fuel (freshPP (.nested []) false) =
      some (PagePage_parse
        (freshPP (.nested ((List.range k).map fun i => [g i])) false) none []) ∧
    (PagePage_parse
        (freshPP (.nested ((List.range k).map fun i => [g i])) false) none
        []).result.length = k := by
  have hbuild := buildUrls_spec f g k h1 h2 fuel 0 (by omega) (by omega)
  rw [List.range_eq_range']
  constructor
  · show (buildUrls f fuel 0).map _ = _
    rw [hbuild]
    simp [freshPP]
  · unfold PagePage_parse
    rw [show (freshPP (.nested ((List.range' 0 k).map fun i => [g i])) false).url =
        .nested ((List.range' 0 k).map fun i => [g i]) from rfl]
    simp only [_process_url]
    rw [foldl_parsePageBucket_result_length]
    simp [freshPP]

/-- Witness for C7: `url_fn` yielding `"a"`, `"b"`, then exhaustion,
with fuel 3. -/
theorem paginated_fetch_k_buckets_witness :
    UrlIdxPagesPage_parse urlFn2 3 (freshPP (.nested []) false) =
      some (PagePage_parse (freshPP (.nested [["a"], ["b"]]) false) none []) ∧
    (PagePage_parse (freshPP (.nested [["a"], ["b"]]) false) none
        []).result.length = 2 := by
  have h := paginated_fetch_k_buckets 2 urlFn2 gFn2 3
    (by intro i hi; interval_cases i <;> exact ⟨rfl, by decide⟩)
    (Or.inl rfl) (by omega)
  constructor
  · have h1 := h.1
    simpa [urlFn2, gFn2, List.range_succ] using h1
  · have h2 := h.2
    simpa [gFn2, List.range_succ] using h2

theorem performForest_entries (fs : AForest) :
    (performForest fs).2 = fs.toList.filterMap (fun c => (performOne c).2) := by
  refine @AForest.rec (fun _ => True)
    (fun l => (performForest l).2 = l.toList.filterMap (fun c => (performOne c).2))
    (fun _ _ _ _ _ _ => trivial) rfl (fun c cs _ ih => ?_) fs
  simp only [performForest, AForest.toList, List.filterMap_cons, ih]
  cases (performOne c).2 <;> simp

/-! ### Claim theorems C8, C9 -/

/-- Claim C8 (counterexample): a node whose `before_func` returns false
and whose `after_func` is configured fires no after hook: the event trace
of its visit contains only the `before_func` call. -/
theorem after_hook_skipped_counterexample :
    Ev.afterEv "x" ∉ (performOne (.mk "x" (some false) true 0 .nil)).1 := by
  decide

/-- Claim C8 (amended): during `Actions.perform`, the after hook does NOT
fire unconditionally.  When `before_func` returns false the node is
skipped entirely — no perform, no after hook, no children; when the gate
passes (`before_func` absent or returning true), `perform` runs and the
after hook fires immediately after it, before the children are visited. -/
theorem after_hook_fires_iff_executed (n₁ n₂ n₃ : String) (a₁ : Bool)
    (r₁ r₂ r₃ : Nat) (cs₁ cs₂ cs₃ : AForest) :
    performOne (.mk n₁ (some false) a₁ r₁ cs₁) = ([.beforeEv n₁], none) ∧
    (performOne (.mk n₂ none true r₂ cs₂)).1 =
      [.performEv n₂, .afterEv n₂] ++ (performForest cs₂).1 ∧
    (performOne (.mk n₃ (some true) true r₃ cs₃)).1 =
      [.beforeEv n₃, .performEv n₃, .afterEv n₃] ++ (performForest cs₃).1 := by
  refine ⟨by simp [performOne], ?_, ?_⟩
  · cases cs₂ <;> simp [performOne, performForest]
  · cases cs₃ <;> simp [performOne, performForest]

/-- Claim C9: `Actions.perform` assembles a result tree mirroring the
forest.  An executed node with children writes, under its name, a mapping
holding its own perform result under the reserved key `__name__` followed
by the entries of its executed children; an executed leaf writes its
perform result directly; and a forest contributes exactly one entry per
executed child (gated-out children contribute nothing). -/
theorem results_tree_mirrors_forest (n m : String) (b b' : Option Bool)
    (a a' : Bool) (r r' : Nat) (c0 : ANode) (cs fs : AForest)
    (hb : b = none ∨ b = some true) (hb' : b' = none ∨ b' = some true) :
    (performOne (.mk n b a r (.cons c0 cs))).2 =
      some (n, .branch (("__" ++ n ++ "__", RTree.leaf r) ::
        (performForest (.cons c0 cs)).2)) ∧
    (performOne (.mk m b' a' r' .nil)).2 = some (m, .leaf r') ∧
    (performForest fs).2 = fs.toList.filterMap (fun c => (performOne c).2) := by
  refine ⟨?_, ?_, performForest_entries fs⟩
  · rcases hb with rfl | rfl <;> simp [performOne]
  · rcases hb' with rfl | rfl <;> simp [performOne]

/-- Witness for C9: a root with one executed child, an executed leaf, and
the one-entry forest of that child. -/
theorem results_tree_mirrors_forest_witness :
    (performOne (.mk "p" none false 1
        (.cons (.mk "c" none false 5 .nil) .nil))).2 =
      some ("p", .branch [("__p__", RTree.leaf 1), ("c", RTree.leaf 5)]) ∧
    (performOne (.mk "q" none true 2 .nil)).2 = some ("q", RTree.leaf 2) ∧
    (performForest (.cons (.mk "c" none false 5 .nil) .nil)).2 =
      [("c", RTree.leaf 5)] := by
  have h := results_tree_mirrors_forest "p" "q" none none false true 1 2
    (.mk "c" none false 5 .nil) .nil (.cons (.mk "c" none false 5 .nil) .nil)
    (Or.inl rfl) (Or.inl rfl)
  exact ⟨by rw [h.1]; rfl, h.2.1, by rw [h.2.2]; rfl⟩

/-! ### Claim theorem C10 -/

/-- Claim C10: two `Actions` orchestrators constructed without an explicit
`pages` argument alias the same mutable default dict: their `pages`
references are identical, and after `add_page` registers root page 7 under
`"root"` through the first instance, the second instance's `pages` mapping
yields that page, so the page forest is not per-orchestrator state under
default construction. -/
theorem default_pages_dict_shared :
    twoDefaultOrchestrators.2.1 = twoDefaultOrchestrators.2.2 ∧
    crossInstanceLookup = some 7 := by
  exact ⟨rfl, rfl⟩

end Spider
